import Mathlib

/-!
# GeoStationNote — verification of the natural-language specification

Shallow embedding of the GeoStationNote client application
(`src/App.tsx`, `src/components/MapContainer.tsx`,
`src/components/StationForm.tsx`, services and types) in Lean 4,
together with theorems settling the specification's claims.

Modelling conventions:
* JavaScript numbers carry no arithmetic in any verified claim, so they
  are modelled as rationals (`ℚ`); timestamps (milliseconds since epoch)
  as `Int`.
* `localStorage` is a string-keyed, string-valued map, modelled as
  `String → Option String`.
* Asynchronous calls (the captioning API, the webhook `fetch`) are
  modelled by passing their outcome as an explicit `Except` parameter;
  a rejected promise is `.error`.
* React effects and event handlers are modelled as state transformers on
  explicit state records; the single-threaded event queue makes each
  handler atomic, but work a handler only schedules — such as a
  `FileReader.onloadend` callback — is a separate queue event of its
  own.
-/

namespace GeoStation

/-- Embedding of `Location` from `src/types.ts`: a latitude/longitude
pair of JavaScript numbers, modelled as rationals. -/
structure Location where
  lat : ℚ
  lng : ℚ
  deriving DecidableEq, Repr

/-- Embedding of `StationData` from `src/types.ts`. `images` holds the
base64 data-URL strings; `timestamp` is milliseconds since epoch. -/
structure StationData where
  id : String
  name : String
  address : String
  location : Location
  description : String
  images : List String
  timestamp : Int
  deriving DecidableEq, Repr

/-- Embedding of the `AppView` enumeration from `src/types.ts`. -/
inductive AppView where
  | MAP
  | LIST
  | SETTINGS
  deriving DecidableEq, Repr

/-- Embedding of `AppConfig` from `src/types.ts`. -/
structure AppConfig where
  googleMapsApiKey : String
  googleSheetScriptUrl : String
  deriving DecidableEq, Repr

/-! ## Station list operations (`src/App.tsx`) -/

/-- Embedding of the list part of `deleteStation` in `src/App.tsx`:
`stations.filter(s => s.id !== id)`. -/
def deleteStationList (stations : List StationData) (i : String) :
    List StationData :=
  stations.filter (fun s => s.id ≠ i)

/-! ## Station form image handling (`src/components/StationForm.tsx`)

`handleImageUpload` is not atomic: the `onChange` handler computes
`remainingSlots` and starts the `FileReader`s synchronously, but each
append happens later, in that reader's `onloadend` callback — a
separate entry on the event queue.  The embedding therefore keeps the
committed `images` state and the still-pending reader results apart. -/

/-- The image-related state of `StationForm` between queue events: the
committed `images` state plus the data-URL results of started
`FileReader`s whose `onloadend` has not fired yet, in creation order. -/
structure FormImages where
  images : List String
  pending : List String
  deriving DecidableEq, Repr

/-- The form's initial image state (`useState<string[]>([])`, no readers
outstanding). -/
def initialFormImages : FormImages := ⟨[], []⟩

/-- The synchronous part of `handleImageUpload`
(`src/components/StationForm.tsx` lines 23–38):
`remainingSlots = 4 - images.length` is computed from the committed
images state at selection time — outstanding reads are not counted —
and a reader is started for each of `files.slice(0, remainingSlots)`.
JavaScript's `slice` with a non-positive bound yields `[]`, which
truncated `Nat` subtraction models exactly.  `files` holds the data-URL
string each started `FileReader` will produce. -/
def selectFiles (st : FormImages) (files : List String) : FormImages :=
  let remainingSlots := 4 - st.images.length
  { st with pending := st.pending ++ files.take remainingSlots }

/-- One `FileReader.onloadend` completion: the reader's result is
appended to the committed state
(`setImages(prev => [...prev, reader.result])`).  Completions are
modelled in creation order; no verified claim depends on the order. -/
def completeRead (st : FormImages) : FormImages :=
  match st.pending with
  | [] => st
  | r :: rest => { images := st.images ++ [r], pending := rest }

/-- Embedding of `removeImage` in `src/components/StationForm.tsx`:
`images.filter((_, i) => i !== index)`. -/
def removeImage (images : List String) (idx : Nat) : List String :=
  ((images.enum).filter (fun p => p.1 ≠ idx)).map Prod.snd

/-- The queue events that mutate the form's image state: a file
selection (the synchronous `onChange` handler), one reader completion,
or a remove click. -/
inductive ImageEvent where
  | select (files : List String)
  | readDone
  | remove (idx : Nat)

/-- One image event applied to the form's image state. -/
def stepImages (st : FormImages) : ImageEvent → FormImages
  | .select files => selectFiles st files
  | .readDone => completeRead st
  | .remove idx => { st with images := removeImage st.images idx }

/-- A sequence of image events run from the form's initial state. -/
def runImageEvents (evs : List ImageEvent) : FormImages :=
  evs.foldl stepImages initialFormImages

/-- JavaScript number-to-string.  No claim inspects numeric formatting;
the shortest-round-trip decimal rendering of IEEE doubles lies outside
the rational model, so numbers are rendered as exact rationals
(integers print exactly as in JavaScript). -/
def jsNumberToString (q : ℚ) : String :=
  if q.den = 1 then toString q.num
  else toString q.num ++ "/" ++ toString q.den

/-! ## Captioning service (`src/services/geminiService.ts`) -/

/-- The fixed fallback string returned by `generateStationDescription`
on any failure. -/
def aiFallbackMessage : String :=
  "Could not generate description via AI. Please try again."

/-- One entry of the `contents.parts` array sent to the captioning
model: an inline image or the text prompt. -/
inductive GeminiPart where
  | inlineImage (base64Data : String)
  | text (prompt : String)
  deriving DecidableEq, Repr

/-- `img.includes("base64,") ? img.split("base64,")[1] : img`: the raw
base64 payload of a data URL. -/
def extractBase64Data (img : String) : String :=
  match img.splitOn "base64," with
  | _ :: second :: _ => second
  | _ => img

/-- The prompt text built around the coordinates (whitespace of the
source's template literal normalized; no claim inspects the prose). -/
def stationPromptText (loc : Location) : String :=
  "Analyze these images of a station or facility at coordinates (" ++
    jsNumberToString loc.lat ++ ", " ++ jsNumberToString loc.lng ++
    "). Provide a concise, professional description of the visual " ++
    "condition, visible equipment, surrounding environment, and any " ++
    "notable features. Keep it under 100 words."

/-- The parts array `generateStationDescription` sends: one inline
image per uploaded photo, then the prompt text. -/
def geminiParts (base64Images : List String) (loc : Location) :
    List GeminiPart :=
  base64Images.map (fun img => GeminiPart.inlineImage (extractBase64Data img))
    ++ [GeminiPart.text (stationPromptText loc)]

/-- The body of the `try` block of `generateStationDescription` in
`src/services/geminiService.ts`.  `api` is `ai.models.generateContent`
as a function of the request parts: `.error` models a rejected promise,
and `.ok t` a response whose `text` field is `t` (`none` models a
missing field, which like the empty string is falsy in
`response.text || ...`). -/
def generateStationDescriptionTry (base64Images : List String)
    (loc : Location)
    (api : List GeminiPart → Except String (Option String)) :
    Except String String :=
  if base64Images.length = 0 then
    .error "No images provided for analysis."
  else
    match api (geminiParts base64Images loc) with
    | .error e => .error e
    | .ok none => .ok "No description generated."
    | .ok (some s) => .ok (if s = "" then "No description generated." else s)

/-- Embedding of `generateStationDescription`: the `try` body with its
`catch` handler, which swallows every error and resolves with the fixed
fallback string.  The returned `Except` models the promise: `.error`
would be a rejection. -/
def generateStationDescription (base64Images : List String)
    (loc : Location)
    (api : List GeminiPart → Except String (Option String)) :
    Except String String :=
  match generateStationDescriptionTry base64Images loc api with
  | .ok s => .ok s
  | .error _ => .ok aiFallbackMessage

/-! ## JSON serialization (`JSON.stringify` / `JSON.parse`)

The app persists its configuration and station list through
`JSON.stringify`/`JSON.parse` (`src/App.tsx`).  The string-escaping
behaviour of both built-ins is embedded here; `parseConfig` is
`JSON.parse` restricted to the object shape `JSON.stringify` emits for
`AppConfig`. -/

/-- Lower-case hexadecimal digit, as produced by JavaScript's
`Number.prototype.toString(16)`. -/
def hexLowerDigit (n : Nat) : Char :=
  if n < 10 then Char.ofNat (48 + n) else Char.ofNat (87 + n)

/-- `JSON.stringify`'s escaping of one character inside a string literal
(ECMA-262 `QuoteJSONString`): `"` and `\` escaped, the five short
escapes, `\u00xx` for the remaining control characters, every other
character verbatim. -/
def jsonEscapeChar (c : Char) : List Char :=
  if c = '\"' then ['\\', '\"']
  else if c = '\\' then ['\\', '\\']
  else if c = '\x08' then ['\\', 'b']
  else if c = '\x09' then ['\\', 't']
  else if c = '\x0a' then ['\\', 'n']
  else if c = '\x0c' then ['\\', 'f']
  else if c = '\x0d' then ['\\', 'r']
  else if c.toNat < 32 then
    let n := c.toNat
    '\\' :: 'u' :: '0' :: '0' :: hexLowerDigit (n / 16) :: [hexLowerDigit (n % 16)]
  else [c]

/-- `JSON.stringify` of a string value. -/
def jsonQuote (s : String) : String :=
  String.mk ('\"' :: s.data.flatMap jsonEscapeChar ++ ['\"'])

/-- Value of one hexadecimal digit, as accepted by `JSON.parse`. -/
def hexVal (c : Char) : Option Nat :=
  if 48 ≤ c.toNat ∧ c.toNat ≤ 57 then some (c.toNat - 48)
  else if 97 ≤ c.toNat ∧ c.toNat ≤ 102 then some (c.toNat - 87)
  else if 65 ≤ c.toNat ∧ c.toNat ≤ 70 then some (c.toNat - 55)
  else none

/-- `JSON.parse`'s handling of a two-character escape sequence. -/
def jsonUnescape (c : Char) : Option Char :=
  if c = '\"' then some '\"'
  else if c = '\\' then some '\\'
  else if c = '/' then some '/'
  else if c = 'b' then some '\x08'
  else if c = 't' then some '\x09'
  else if c = 'n' then some '\x0a'
  else if c = 'f' then some '\x0c'
  else if c = 'r' then some '\x0d'
  else none

/-- `JSON.parse`'s scan of a string literal's body after the opening
quote: returns the decoded characters and the input remaining after the
closing quote. -/
def jsonStringBody : List Char → Option (List Char × List Char)
  | [] => none
  | c :: rest =>
    if c = '\"' then some ([], rest)
    else if c = '\\' then
      match rest with
      | [] => none
      | e :: rest2 =>
        if e = 'u' then
          match rest2 with
          | h1 :: h2 :: h3 :: h4 :: rest3 =>
            match hexVal h1, hexVal h2, hexVal h3, hexVal h4 with
            | some a, some b, some c2, some d =>
              (jsonStringBody rest3).map
                (fun p => (Char.ofNat (((a * 16 + b) * 16 + c2) * 16 + d) :: p.1, p.2))
            | _, _, _, _ => none
          | _ => none
        else
          match jsonUnescape e with
          | some u => (jsonStringBody rest2).map (fun p => (u :: p.1, p.2))
          | none => none
    else (jsonStringBody rest).map (fun p => (c :: p.1, p.2))
termination_by l => l.length
decreasing_by all_goals simp_arith

/-- `JSON.parse` of a string literal standing at the head of the input. -/
def parseJsonString (l : List Char) : Option (List Char × List Char) :=
  match l with
  | c :: rest => if c = '\"' then jsonStringBody rest else none
  | [] => none

/-- Exact-prefix matcher used to parse the fixed object frame that
`JSON.stringify` emits. -/
def dropLit : List Char → List Char → Option (List Char)
  | [], l => some l
  | _ :: _, [] => none
  | c :: p, d :: l => if d = c then dropLit p l else none

/-- Hex digits survive the encode/decode round trip. -/
theorem hexVal_hexLowerDigit : ∀ n, n < 16 → hexVal (hexLowerDigit n) = some n := by
  decide

/-- Scanning one escaped character recovers that character. -/
theorem jsonStringBody_escape (c : Char) (t : List Char) :
    jsonStringBody (jsonEscapeChar c ++ t) =
      (jsonStringBody t).map (fun p => (c :: p.1, p.2)) := by
  unfold jsonEscapeChar
  split_ifs with h1 h2 h3 h4 h5 h6 h7 h8
  · subst h1; rw [List.cons_append, jsonStringBody.eq_def]; simp [jsonUnescape]
  · subst h2; rw [List.cons_append, jsonStringBody.eq_def]; simp [jsonUnescape]
  · subst h3; rw [List.cons_append, jsonStringBody.eq_def]; simp [jsonUnescape]
  · subst h4; rw [List.cons_append, jsonStringBody.eq_def]; simp [jsonUnescape]
  · subst h5; rw [List.cons_append, jsonStringBody.eq_def]; simp [jsonUnescape]
  · subst h6; rw [List.cons_append, jsonStringBody.eq_def]; simp [jsonUnescape]
  · subst h7; rw [List.cons_append, jsonStringBody.eq_def]; simp [jsonUnescape]
  · have hhi : c.toNat / 16 < 16 := by omega
    have hlo : c.toNat % 16 < 16 := Nat.mod_lt _ (by norm_num)
    have h0 : hexVal '0' = some 0 := by decide
    have hc : c.toNat / 16 * 16 + c.toNat % 16 = c.toNat := by omega
    rw [List.cons_append, jsonStringBody.eq_def]
    simp [h0, hexVal_hexLowerDigit _ hhi, hexVal_hexLowerDigit _ hlo, hc,
      Char.ofNat_toNat]
  · rw [List.cons_append, jsonStringBody.eq_def]
    simp [h1, h2]

/-- The body of a `JSON.stringify`-escaped string scans back to the
original characters, consuming exactly up to the closing quote. -/
theorem jsonStringBody_roundTrip (l t : List Char) :
    jsonStringBody (l.flatMap jsonEscapeChar ++ '\"' :: t) = some (l, t) := by
  induction l with
  | nil =>
    rw [List.flatMap_nil, List.nil_append, jsonStringBody.eq_def]
    simp
  | cons c l ih =>
    rw [List.flatMap_cons, List.append_assoc, jsonStringBody_escape, ih]
    rfl

/-- Matching a literal prefix strips exactly that prefix. -/
theorem dropLit_append (p t : List Char) : dropLit p (p ++ t) = some t := by
  induction p with
  | nil => rfl
  | cons c p ih => simp [dropLit, ih]

/-- `JSON.stringify` of an `AppConfig` value: the two fields appear in
the object's insertion order (`googleMapsApiKey`, then
`googleSheetScriptUrl`), matching every object literal of that type in
the source. -/
def encodeConfig (c : AppConfig) : String :=
  "\x7b\"googleMapsApiKey\":" ++ jsonQuote c.googleMapsApiKey ++
    ",\"googleSheetScriptUrl\":" ++ jsonQuote c.googleSheetScriptUrl ++ "\x7d"

/-- `JSON.parse` restricted to the object shape `JSON.stringify` emits
for `AppConfig`. -/
def parseConfig (s : String) : Option AppConfig :=
  (dropLit ("\x7b\"googleMapsApiKey\":".data) s.data).bind fun r1 =>
    (parseJsonString r1).bind fun p =>
      (dropLit (",\"googleSheetScriptUrl\":".data) p.2).bind fun q =>
        (parseJsonString q).bind fun r =>
          if r.2 = ['\x7d'] then
            some ⟨String.mk p.1, String.mk r.1⟩
          else none

/-- Configurations survive the `JSON.stringify`/`JSON.parse` round trip. -/
theorem parseConfig_encodeConfig (c : AppConfig) :
    parseConfig (encodeConfig c) = some c := by
  obtain ⟨key, url⟩ := c
  unfold encodeConfig parseConfig jsonQuote
  simp only [String.data_append, List.append_assoc, List.cons_append,
    List.nil_append]
  simp only [dropLit, Option.some_bind, parseJsonString, if_true, if_pos rfl]
  rw [jsonStringBody_roundTrip]
  simp only [Option.some_bind, dropLit, parseJsonString, if_true, if_pos rfl]
  rw [jsonStringBody_roundTrip]
  simp only [Option.some_bind]
  rfl

/-! ## Durable local storage (`localStorage`) -/

/-- The browser's `localStorage`, modelled as a string-keyed map. -/
def LocalStorage : Type := String → Option String

/-- `localStorage.setItem`. -/
def setItem (st : LocalStorage) (k v : String) : LocalStorage :=
  fun q => if q = k then some v else st q

/-- `localStorage.getItem`. -/
def getItem (st : LocalStorage) (k : String) : Option String := st k

/-- An empty browser profile. -/
def emptyStorage : LocalStorage := fun _ => none

/-- `STORAGE_KEY_CONFIG` in `src/App.tsx`. -/
def STORAGE_KEY_CONFIG : String := "geo_station_config"

/-- `STORAGE_KEY_DATA` in `src/App.tsx`. -/
def STORAGE_KEY_DATA : String := "geo_station_data"

/-! ## Station list serialization -/

/-- `JSON.stringify` of a string array. -/
def jsonQuoteList (l : List String) : String :=
  "[" ++ String.intercalate "," (l.map jsonQuote) ++ "]"

/-- `JSON.stringify` of one `StationData` value, fields in the insertion
order of the object literal built by `StationForm.handleSubmit`. -/
def encodeStation (s : StationData) : String :=
  "\x7b\"id\":" ++ jsonQuote s.id ++
    ",\"name\":" ++ jsonQuote s.name ++
    ",\"address\":" ++ jsonQuote s.address ++
    ",\"description\":" ++ jsonQuote s.description ++
    ",\"location\":\x7b\"lat\":" ++ jsNumberToString s.location.lat ++
    ",\"lng\":" ++ jsNumberToString s.location.lng ++ "\x7d" ++
    ",\"images\":" ++ jsonQuoteList s.images ++
    ",\"timestamp\":" ++ toString s.timestamp ++ "\x7d"

/-- `JSON.stringify` of the station list. -/
def encodeStations (l : List StationData) : String :=
  "[" ++ String.intercalate "," (l.map encodeStation) ++ "]"

/-! ## Host application state and handlers (`src/App.tsx`) -/

/-- `DEFAULT_CENTER` in `src/App.tsx` (Hanoi). -/
def DEFAULT_CENTER : Location := ⟨21.0285, 105.8542⟩

/-- The `App` component's `useState` hooks, together with the browser
storage it writes through. -/
structure AppState where
  config : AppConfig
  stations : List StationData
  currentView : AppView
  mapCenter : Location
  zoom : ℚ
  selectedLocation : Option Location
  isSidebarOpen : Bool
  storage : LocalStorage

/-- The mount state of `App` over a given browser profile: the
`useState` initial values. -/
def initialAppState (storage : LocalStorage) : AppState :=
  { config := ⟨"", ""⟩, stations := [], currentView := .MAP,
    mapCenter := DEFAULT_CENTER, zoom := 12, selectedLocation := none,
    isSidebarOpen := true, storage := storage }

/-- `updateConfig` in `src/App.tsx`: sets the config state and writes
its serialization under `STORAGE_KEY_CONFIG`. -/
def updateConfig (st : AppState) (newConfig : AppConfig) : AppState :=
  { st with
    config := newConfig,
    storage := setItem st.storage STORAGE_KEY_CONFIG (encodeConfig newConfig) }

/-- The config half of the mount effect in `src/App.tsx`:
`JSON.parse` of `localStorage.getItem(STORAGE_KEY_CONFIG)` when the key
is present. -/
def loadConfig (storage : LocalStorage) : Option AppConfig :=
  (getItem storage STORAGE_KEY_CONFIG).bind parseConfig

/-- `addStation` in `src/App.tsx`: prepends the new record, writes the
serialized updated list under `STORAGE_KEY_DATA`, clears the selection
and switches to the list view. -/
def addStation (st : AppState) (station : StationData) : AppState :=
  let updated := station :: st.stations
  { st with
    stations := updated,
    storage := setItem st.storage STORAGE_KEY_DATA (encodeStations updated),
    selectedLocation := none,
    currentView := .LIST }

/-- `deleteStation` in `src/App.tsx`: filters the record out by identity
and writes the serialized updated list. -/
def deleteStation (st : AppState) (i : String) : AppState :=
  let updated := deleteStationList st.stations i
  { st with
    stations := updated,
    storage := setItem st.storage STORAGE_KEY_DATA (encodeStations updated) }

/-! ## Webhook sync (`src/services/sheetService.ts`) -/

/-- The `FormData` payload `saveToGoogleSheetScript` posts: identity,
name, address, coordinates, description and the image count (images
themselves are not transmitted). -/
def webhookPayload (station : StationData) : List (String × String) :=
  [("id", station.id), ("name", station.name), ("address", station.address),
   ("lat", jsNumberToString station.location.lat),
   ("lng", jsNumberToString station.location.lng),
   ("description", station.description),
   ("imageCount", toString station.images.length)]

/-- Embedding of `saveToGoogleSheetScript`: returns `false` without
issuing a request when no URL is configured; otherwise posts the
form-encoded payload and returns `true`, with every `fetch` failure
caught, logged and turned into `false`.  `fetchOutcome` is the outcome
of the `fetch` call (`.error` models a rejected promise). -/
def saveToGoogleSheetScript (station : StationData) (scriptUrl : String)
    (fetchOutcome : Except String Unit) : Bool :=
  if scriptUrl = "" then false
  else
    let payload := webhookPayload station
    let _ := payload
    match fetchOutcome with
    | .ok _ => true
    | .error _ => false

/-! ## Station form submission (`src/components/StationForm.tsx`) -/

/-- The form fields of `StationForm` at submission time. -/
structure FormState where
  name : String
  address : String
  description : String
  images : List String

/-- The `newStation` object literal of `StationForm.handleSubmit`:
fresh `crypto.randomUUID()` identity (`freshId`), the form fields, the
selected location and the `Date.now()` timestamp (`now`). -/
def builtStation (form : FormState) (loc : Location) (freshId : String)
    (now : Int) : StationData :=
  { id := freshId, name := form.name, address := form.address,
    description := form.description, location := loc,
    images := form.images, timestamp := now }

/-- Embedding of `StationForm.handleSubmit` followed by `onSave`
(= `App.addStation`): builds the new `StationData`, awaits the
best-effort webhook sync when a script URL is configured — its Boolean
result is discarded — then hands the record to the host app. -/
def handleSubmit (st : AppState) (form : FormState) (loc : Location)
    (freshId : String) (now : Int) (fetchOutcome : Except String Unit) :
    AppState :=
  let newStation : StationData := builtStation form loc freshId now
  let synced :=
    if st.config.googleSheetScriptUrl ≠ "" then
      saveToGoogleSheetScript newStation st.config.googleSheetScriptUrl
        fetchOutcome
    else false
  let _ := synced
  addStation st newStation

/-! ## App events and rendering -/

/-- The user-driven events of the app shell: the `src/App.tsx` handlers
and the buttons that invoke them.  `submitForm` carries the
environment-chosen UUID, clock value and webhook outcome. -/
inductive AppEvent where
  | mapClick (loc : Location)
  | markerClick (station : StationData)
  | locateSuccess (loc : Location)
  | locateFailure
  | openSettings
  | saveSettings (cfg : AppConfig)
  | cancelForm
  | submitForm (form : FormState) (freshId : String) (now : Int)
      (fetchOutcome : Except String Unit)
  | deleteClick (i : String)
  | viewListClick
  | openSidebar
  | closeSidebar

/-- One event applied to the app state.  `mapClick` is `handleMapClick`,
`markerClick` is `handleMarkerClick`, `locateSuccess`/`locateFailure`
are the two geolocation callbacks of `handleLocateMe` (the failure
branch only alerts), `openSettings`/`viewListClick` and the sidebar
toggles are the corresponding buttons, `saveSettings` is the settings
form's `onSave` + `onClose`, `cancelForm` the station form's
`onCancel`.  `submitForm` fires only while the station form is rendered
(selection set and view `MAP`). -/
def step (st : AppState) : AppEvent → AppState
  | .mapClick loc =>
    { st with selectedLocation := some loc, isSidebarOpen := true,
              currentView := .MAP }
  | .markerClick s =>
    { st with mapCenter := s.location, zoom := 16, currentView := .LIST,
              isSidebarOpen := true }
  | .locateSuccess loc =>
    { st with mapCenter := loc, zoom := 15, selectedLocation := some loc }
  | .locateFailure => st
  | .openSettings => { st with currentView := .SETTINGS }
  | .saveSettings cfg => { updateConfig st cfg with currentView := .MAP }
  | .cancelForm => { st with selectedLocation := none }
  | .submitForm form freshId now fetchOutcome =>
    match st.selectedLocation, st.currentView with
    | some loc, .MAP => handleSubmit st form loc freshId now fetchOutcome
    | _, _ => st
  | .deleteClick i => deleteStation st i
  | .viewListClick => { st with currentView := .LIST }
  | .openSidebar => { st with isSidebarOpen := true }
  | .closeSidebar => { st with isSidebarOpen := false }

/-- A sequence of events applied from a given state. -/
def run (st : AppState) (evs : List AppEvent) : AppState :=
  evs.foldl step st

/-- What the sidebar renders. -/
inductive SidebarView where
  | settingsView (cfg : AppConfig)
  | formView (loc : Location)
  | listView (stations : List StationData)
  deriving DecidableEq, Repr

/-- Embedding of `renderSidebar` in `src/App.tsx`: the settings panel
when the view is `SETTINGS`; else the station form when a location is
selected and the view is `MAP`; else the saved-stations list. -/
def renderSidebar (st : AppState) : SidebarView :=
  if st.currentView = AppView.SETTINGS then .settingsView st.config
  else
    match st.selectedLocation, st.currentView with
    | some loc, AppView.MAP => .formView loc
    | _, _ => .listView st.stations

/-! ## Map backend lifecycle (`src/components/MapContainer.tsx`) -/

/-- The two backend instance refs of `MapContainer`
(`googleMapRef.current`, `leafletMapRef.current`), abstracted to whether
each currently holds a live instance rendering into the container. -/
structure MapRefs where
  googleMap : Bool
  leafletMap : Bool
  deriving DecidableEq, Repr

/-- The refs on mount: both `useRef(null)`. -/
def initialMapRefs : MapRefs := ⟨false, false⟩

/-- The inputs the two init effects read besides the refs. -/
structure MapEnv where
  apiKey : String
  googleScriptLoaded : Bool
  containerReady : Bool
  leafletAvailable : Bool

/-- Ref-state trace of the Google init effect (lines 64–92 of
`MapContainer.tsx`): when its guard holds it first tears down a live
Leaflet instance (`leafletMapRef.current.remove(); … = null`), then
constructs the Google map.  The trace lists the state after each
primitive mutation. -/
def googleInitTrace (env : MapEnv) (s : MapRefs) : List MapRefs :=
  if env.apiKey ≠ "" ∧ env.googleScriptLoaded ∧ env.containerReady ∧
      s.googleMap = false then
    [{ s with leafletMap := false }, { googleMap := true, leafletMap := false }]
  else []

/-- Ref-state trace of the Leaflet init effect (lines 154–174): when its
guard holds it first drops a live Google instance
(`googleMapRef.current = null` — the source notes Google Maps v3 has no
explicit destroy, so dropping the reference and letting Leaflet clear
the container contents is its teardown), then constructs the Leaflet
map. -/
def leafletInitTrace (env : MapEnv) (s : MapRefs) : List MapRefs :=
  if env.apiKey = "" ∧ env.containerReady ∧ s.leafletMap = false ∧
      env.leafletAvailable then
    [{ s with googleMap := false }, { googleMap := false, leafletMap := true }]
  else []

/-- The final state of a trace starting at `s`. -/
def afterTrace (s : MapRefs) (t : List MapRefs) : MapRefs := t.getLastD s

/-- One render pass of `MapContainer`: both init effects run in
definition order (their guards are mutually exclusive on `apiKey`). -/
def renderPassTrace (env : MapEnv) (s : MapRefs) : List MapRefs :=
  let t1 := googleInitTrace env s
  t1 ++ leafletInitTrace env (afterTrace s t1)

/-- Ref-state trace of successive render passes, each with its own
environment — e.g. after a runtime change of the provider key. -/
def renderPasses : List MapEnv → MapRefs → List MapRefs
  | [], _ => []
  | e :: es, s =>
    let t := renderPassTrace e s
    t ++ renderPasses es (afterTrace s t)

/-- Both backends rendering into the container at once. -/
def bothActive (s : MapRefs) : Prop :=
  s.googleMap = true ∧ s.leafletMap = true

/-- A safe primitive transition: a backend only becomes active starting
from a state in which the other backend is already torn down, and the
other stays torn down — so `CommercialActive` and `FallbackActive` are
only ever connected through the uninitialized state. -/
def safeStep (u v : MapRefs) : Prop :=
  (u.googleMap = false ∧ v.googleMap = true →
    u.leafletMap = false ∧ v.leafletMap = false) ∧
  (u.leafletMap = false ∧ v.leafletMap = true →
    u.googleMap = false ∧ v.googleMap = false)

/-! ## Marker reconciliation (`src/components/MapContainer.tsx`) -/

/-- The data determining a rendered station marker (identity and
position); both backends build exactly one per station. -/
structure MarkerKey where
  stationId : String
  pos : Location
  deriving DecidableEq, Repr

/-- The marker rendered for a station. -/
def markerOf (s : StationData) : MarkerKey := ⟨s.id, s.location⟩

/-- The outcome of one run of a station-markers effect. -/
structure SyncResult where
  removed : List MarkerKey
  added : List MarkerKey
  rendered : List MarkerKey
  deriving DecidableEq, Repr

/-- Embedding of the station-markers effects (Google: lines 103–126,
Leaflet: lines 184–208; identical shape): every previously rendered
marker is removed (`marker.setMap(null)` / `removeLayer`), the ref is
cleared, and one fresh marker per station is created and pushed. -/
def syncMarkers (prev : List MarkerKey) (stations : List StationData) :
    SyncResult :=
  { removed := prev
    added := stations.map markerOf
    rendered := stations.map markerOf }

/-- Embedding of the temp-marker effects (Google: lines 128–148,
Leaflet: lines 210–235): the previous selection marker, if any, is
removed, and a fresh one is created exactly when a location is
selected.  Returns (markers removed, marker now rendered). -/
def syncTempMarker (prevTemp : Option Location) (sel : Option Location) :
    List Location × Option Location :=
  (match prevTemp with
   | some p => [p]
   | none => [], sel)

/-! ## CSV export (`src/services/sheetService.ts`) -/

/-- `s.replace(/"/g, '""')`. -/
def csvEscapeQuotes (s : String) : String :=
  String.mk (s.data.flatMap fun c => if c = '\"' then ['\"', '\"'] else [c])

/-- A double-quote-wrapped CSV field with internal quotes doubled. -/
def csvQuote (s : String) : String :=
  "\"" ++ csvEscapeQuotes s ++ "\""

/-- Zero-padded decimal rendering. -/
def padNum (width n : Nat) : String :=
  let d := toString n
  String.mk (List.replicate (width - d.length) '0') ++ d

/-- Proleptic Gregorian date for a day number relative to 1970-01-01
(the civil-from-days conversion JavaScript `Date` performs). -/
def civilFromDays (z0 : Int) : Int × Nat × Nat :=
  let z := z0 + 719468
  let era := (if 0 ≤ z then z else z - 146096) / 146097
  let doe := (z - era * 146097).toNat
  let yoe := (doe - doe / 1460 + doe / 36524 - doe / 146096) / 365
  let y := (yoe : Int) + era * 400
  let doy := doe - (365 * yoe + yoe / 4 - yoe / 100)
  let mp := (5 * doy + 2) / 153
  let d := doy - (153 * mp + 2) / 5 + 1
  let m := if mp < 10 then mp + 3 else mp - 9
  (if m ≤ 2 then y + 1 else y, m, d)

/-- `Date.prototype.toISOString` for timestamps whose year lies in
0–9999 (the regime of the app's `Date.now()` values; the extended-year
format is not modelled). -/
def toISOString (ms : Int) : String :=
  let days := ms.fdiv 86400000
  let msOfDay := (ms - days * 86400000).toNat
  let ymd := civilFromDays days
  padNum 4 ymd.1.toNat ++ "-" ++ padNum 2 ymd.2.1 ++ "-" ++
    padNum 2 ymd.2.2 ++ "T" ++ padNum 2 (msOfDay / 3600000) ++ ":" ++
    padNum 2 (msOfDay % 3600000 / 60000) ++ ":" ++
    padNum 2 (msOfDay % 60000 / 1000) ++ "." ++ padNum 3 (msOfDay % 1000) ++ "Z"

/-- The header row of `exportToCSV`. -/
def csvHeaders : List String :=
  ["ID", "Name", "Address", "Latitude", "Longitude", "Description",
   "Timestamp"]

/-- The row `exportToCSV` builds for one station: the `id` is emitted
raw; `name`, `address` and `description` are quote-wrapped with internal
quotes doubled; the coordinates and the ISO-8601 timestamp are
unquoted. -/
def csvRowFields (s : StationData) : List String :=
  [s.id, csvQuote s.name, csvQuote s.address,
   jsNumberToString s.location.lat, jsNumberToString s.location.lng,
   csvQuote s.description, toISOString s.timestamp]

/-- `csvContent` in `exportToCSV`: the header row followed by one row
per station, rows joined by `\n` and fields by `,`. -/
def csvContent (stations : List StationData) : String :=
  String.intercalate "\n"
    (String.intercalate "," csvHeaders ::
      stations.map (fun s => String.intercalate "," (csvRowFields s)))

/-- Reading a quote-wrapped CSV field back: after the opening quote,
doubled quotes collapse to one and a lone quote must end the field. -/
def csvUnquoteBody : List Char → Option (List Char)
  | [] => none
  | c :: rest =>
    if c = '\"' then
      match rest with
      | [] => some []
      | d :: rest2 =>
        if d = '\"' then (csvUnquoteBody rest2).map (fun l => '\"' :: l)
        else none
    else (csvUnquoteBody rest).map (fun l => c :: l)
termination_by l => l.length
decreasing_by all_goals simp_arith

/-- Reading a quote-wrapped CSV field back, outer quotes included. -/
def csvUnquote (s : String) : Option String :=
  match s.data with
  | c :: rest => if c = '\"' then (csvUnquoteBody rest).map String.mk else none
  | [] => none

/-! ## Sample data for concrete evaluations -/

/-- A concrete saved station. -/
def sampleStationA : StationData :=
  { id := "a1", name := "Alpha", address := "1 Main St",
    location := ⟨21, 105⟩, description := "first", images := [],
    timestamp := 0 }

/-- A second concrete saved station. -/
def sampleStationB : StationData :=
  { id := "b2", name := "Beta", address := "2 Main St",
    location := ⟨10, 100⟩, description := "second", images := [],
    timestamp := 1000 }

/-- A concrete app state holding the two sample stations. -/
def sampleState : AppState :=
  { initialAppState emptyStorage with
    stations := [sampleStationA, sampleStationB] }

/-! ## Helper lemmas -/

/-- Deleting by a present identity from an identity-unique list removes
exactly the matching entry, keeping the rest in order. -/
theorem deleteStationList_eq (l : List StationData) (i : String)
    (hnodup : (l.map StationData.id).Nodup)
    (hmem : i ∈ l.map StationData.id) :
    ∃ l₁ r l₂, l = l₁ ++ r :: l₂ ∧ r.id = i ∧
      deleteStationList l i = l₁ ++ l₂ := by
  induction l with
  | nil => simp at hmem
  | cons a t ih =>
    simp only [List.map_cons, List.nodup_cons] at hnodup
    by_cases h : a.id = i
    · refine ⟨[], a, t, rfl, h, ?_⟩
      have hfilter : deleteStationList (a :: t) i = deleteStationList t i := by
        simp [deleteStationList, h]
      rw [hfilter, List.nil_append]
      apply List.filter_eq_self.mpr
      intro x hx
      have : x.id ≠ i := by
        intro hxi
        apply hnodup.1
        rw [h, ← hxi]
        exact List.mem_map_of_mem StationData.id hx
      simpa using this
    · have hmem' : i ∈ t.map StationData.id := by
        rcases List.mem_cons.mp hmem with hh | hh
        · exact absurd hh.symm h
        · exact hh
      obtain ⟨l₁, r, l₂, heq, hr, hfil⟩ := ih hnodup.2 hmem'
      refine ⟨a :: l₁, r, l₂, by rw [heq, List.cons_append], hr, ?_⟩
      have : deleteStationList (a :: t) i = a :: deleteStationList t i := by
        simp [deleteStationList, h]
      rw [this, hfil, List.cons_append]

/-! ## C4 — deletion removes exactly one record, order preserved -/

/-- C4: for every record list with unique identities and every identity
present in it, `deleteStation` removes exactly one entry — the matching
one — and leaves the relative order of all remaining entries unchanged
(`src/App.tsx` lines 58–62). -/
theorem deleteStation_removes_exactly_one (st : AppState) (i : String)
    (hnodup : (st.stations.map StationData.id).Nodup)
    (hmem : i ∈ st.stations.map StationData.id) :
    ∃ l₁ r l₂, st.stations = l₁ ++ r :: l₂ ∧ r.id = i ∧
      (deleteStation st i).stations = l₁ ++ l₂ :=
  deleteStationList_eq st.stations i hnodup hmem

/-- C4 witness: deleting `"a1"` from the two sample stations. -/
theorem deleteStation_removes_exactly_one_witness :
    ∃ l₁ r l₂, sampleState.stations = l₁ ++ r :: l₂ ∧ r.id = "a1" ∧
      (deleteStation sampleState "a1").stations = l₁ ++ l₂ :=
  deleteStation_removes_exactly_one sampleState "a1" (by decide) (by decide)

/-! ## C9 — the four-image limit is broken by overlapping uploads -/

/-- Two four-file selections where the second `onChange` fires before
any of the first batch's `FileReader.onloadend` callbacks, followed by
all eight completions — realizable with large files. -/
def overlappingUploads : List ImageEvent :=
  [.select ["f1", "f2", "f3", "f4"], .select ["g1", "g2", "g3", "g4"],
   .readDone, .readDone, .readDone, .readDone,
   .readDone, .readDone, .readDone, .readDone]

/-- C9: evaluation at the failing input.  Both selections compute
`remainingSlots = 4 - images.length` from the still-empty committed
state — outstanding reads are not counted — so all eight readers are
started and the form ends with eight images, breaking the four-image
limit the source itself states (`// Limit to 4 images total` and the
`Photos (n/4)` caption in `src/components/StationForm.tsx`). -/
theorem form_images_exceed_four_on_overlap :
    (runImageEvents overlappingUploads).images.length = 8 ∧
    ¬((runImageEvents overlappingUploads).images.length ≤ 4) := by
  decide

/-! ## C10 — captioning call is total, fixed fallback on empty input -/

/-- C10: `generateStationDescription` always resolves with some string
and never rejects; with an empty image list it resolves with the fixed
fallback string for every behaviour of the captioning service — the
service is not consulted (`src/services/geminiService.ts`). -/
theorem generateStationDescription_total (base64Images : List String)
    (loc : Location)
    (api : List GeminiPart → Except String (Option String)) :
    (∃ s, generateStationDescription base64Images loc api = .ok s) ∧
    (∀ api2, generateStationDescription [] loc api2 =
      .ok aiFallbackMessage) := by
  constructor
  · unfold generateStationDescription
    cases h : generateStationDescriptionTry base64Images loc api with
    | ok s => exact ⟨s, rfl⟩
    | error e => exact ⟨aiFallbackMessage, rfl⟩
  · intro api2
    rfl

/-! ## C8 — webhook failure is swallowed, local save unaffected -/

/-- C8: with a configured webhook URL, a delivery failure is swallowed —
`saveToGoogleSheetScript` returns `false` instead of raising — the
post-submission state is identical to the success case, and the record
is still stored in the list and in durable storage
(`src/services/sheetService.ts` lines 356–383, `StationForm.handleSubmit`). -/
theorem webhook_failure_swallowed (st : AppState) (form : FormState)
    (loc : Location) (freshId : String) (now : Int) (e : String)
    (hurl : st.config.googleSheetScriptUrl ≠ "") :
    saveToGoogleSheetScript (builtStation form loc freshId now)
      st.config.googleSheetScriptUrl (.error e) = false ∧
    handleSubmit st form loc freshId now (.error e) =
      handleSubmit st form loc freshId now (.ok ()) ∧
    (handleSubmit st form loc freshId now (.error e)).stations =
      builtStation form loc freshId now :: st.stations ∧
    getItem (handleSubmit st form loc freshId now (.error e)).storage
        STORAGE_KEY_DATA =
      some (encodeStations (builtStation form loc freshId now ::
        st.stations)) := by
  refine ⟨?_, rfl, rfl, ?_⟩
  · unfold saveToGoogleSheetScript
    rw [if_neg hurl]
  · show getItem (setItem st.storage STORAGE_KEY_DATA _) STORAGE_KEY_DATA = _
    simp [getItem, setItem]

/-- A concrete state with a configured webhook URL. -/
def webhookState : AppState :=
  { initialAppState emptyStorage with
    config := ⟨"", "https://script.example/exec"⟩ }

/-- C8 witness: a failing webhook call on a concrete submission. -/
theorem webhook_failure_swallowed_witness :
    saveToGoogleSheetScript (builtStation ⟨"A", "B", "", []⟩ ⟨21, 105⟩ "u1" 0)
      webhookState.config.googleSheetScriptUrl (.error "network down") =
        false ∧
    handleSubmit webhookState ⟨"A", "B", "", []⟩ ⟨21, 105⟩ "u1" 0
        (.error "network down") =
      handleSubmit webhookState ⟨"A", "B", "", []⟩ ⟨21, 105⟩ "u1" 0
        (.ok ()) ∧
    (handleSubmit webhookState ⟨"A", "B", "", []⟩ ⟨21, 105⟩ "u1" 0
        (.error "network down")).stations =
      builtStation ⟨"A", "B", "", []⟩ ⟨21, 105⟩ "u1" 0 ::
        webhookState.stations ∧
    getItem (handleSubmit webhookState ⟨"A", "B", "", []⟩ ⟨21, 105⟩ "u1" 0
        (.error "network down")).storage STORAGE_KEY_DATA =
      some (encodeStations (builtStation ⟨"A", "B", "", []⟩ ⟨21, 105⟩ "u1" 0 ::
        webhookState.stations)) :=
  webhook_failure_swallowed webhookState ⟨"A", "B", "", []⟩ ⟨21, 105⟩ "u1" 0
    "network down" (by decide)

/-! ## C6 — configuration round-trips through storage exactly -/

/-- C6: for every pair of configuration strings, saving the
configuration and reloading it from durable storage yields the same
strings exactly (`updateConfig` and the mount effect, `src/App.tsx`). -/
theorem config_roundtrip (st : AppState) (key url : String) :
    loadConfig (updateConfig st ⟨key, url⟩).storage = some ⟨key, url⟩ := by
  unfold loadConfig updateConfig getItem setItem
  simp [parseConfig_encodeConfig]

/-! ## C2 — marker reconciliation is not churn-free (full redraw) -/

/-- C2 counterexample: with the marker for the single sample station
already rendered, re-running the markers effect on the unchanged list
removes that marker and adds a fresh one — the churn is not empty
(`src/components/MapContainer.tsx` lines 103–126 and 184–208 clear and
redraw unconditionally). -/
theorem syncMarkers_not_churn_free :
    ¬((syncMarkers (List.map markerOf [sampleStationA])
        [sampleStationA]).removed = [] ∧
      (syncMarkers (List.map markerOf [sampleStationA])
        [sampleStationA]).added = []) := by
  intro h
  exact absurd h.1 (by simp [syncMarkers])

/-- C2 amended: each run of a markers effect removes every previously
rendered marker and adds one marker per record — churn `|prev| + |L|`,
not zero — but the resulting rendered set depends only on the inputs,
so re-running with unchanged inputs reproduces exactly the same
rendered station markers and the same selection marker. -/
theorem syncMarkers_full_redraw (prev : List MarkerKey)
    (stations : List StationData) (prevTemp sel : Option Location) :
    (syncMarkers prev stations).removed = prev ∧
    (syncMarkers prev stations).added = stations.map markerOf ∧
    (syncMarkers (syncMarkers prev stations).rendered stations).rendered =
      (syncMarkers prev stations).rendered ∧
    (syncMarkers (syncMarkers prev stations).rendered stations).removed =
      (syncMarkers prev stations).rendered ∧
    (syncTempMarker (syncTempMarker prevTemp sel).2 sel).2 =
      (syncTempMarker prevTemp sel).2 :=
  ⟨rfl, rfl, rfl, rfl, rfl⟩

/-! ## C7 — selection does not force the form view -/

/-- The location used in the C7 scenario. -/
def c7Loc : Location := ⟨21, 105⟩

/-- The reachable state for C7: open the settings panel, then use the
locate-me button (whose success callback selects the current location
without changing the view). -/
def c7State : AppState :=
  run (initialAppState emptyStorage) [.openSettings, .locateSuccess c7Loc]

/-- C7 counterexample: in the reachable state `c7State` the Selection is
set, yet the sidebar renders the settings panel, not the station form —
`renderSidebar` checks `currentView === MAP` before showing the form and
`handleLocateMe` never changes the view (`src/App.tsx` lines 79–96 and
99–119). -/
theorem selection_does_not_force_form :
    c7State.selectedLocation = some c7Loc ∧
    renderSidebar c7State = .settingsView ⟨"", ""⟩ ∧
    ∀ loc, renderSidebar c7State ≠ .formView loc := by
  refine ⟨rfl, rfl, ?_⟩
  intro loc h
  rw [show renderSidebar c7State = .settingsView ⟨"", ""⟩ from rfl] at h
  exact SidebarView.noConfusion h

/-- C7 amended: the sidebar shows the station form exactly when the
Selection is set and the stored view-mode is `MAP`; a map click always
establishes that combination, but the locate-me success callback sets
the Selection without touching the view-mode, so with mode `SETTINGS`
or `LIST` and a Selection set another view is shown. -/
theorem renderSidebar_formView_iff (st : AppState) (loc : Location) :
    (renderSidebar st = .formView loc ↔
      st.selectedLocation = some loc ∧ st.currentView = AppView.MAP) ∧
    renderSidebar (step st (.mapClick loc)) = .formView loc := by
  constructor
  · unfold renderSidebar
    split_ifs with h
    · constructor
      · intro hx; simp at hx
      · rintro ⟨-, hv⟩
        rw [hv] at h
        exact AppView.noConfusion h
    · cases hsel : st.selectedLocation with
      | none =>
        cases hview : st.currentView <;>
          simp_all [renderSidebar]
      | some l =>
        cases hview : st.currentView <;>
          simp_all [renderSidebar]
  · simp [step, renderSidebar]

/-! ## C3 — form submission appends exactly one fresh record -/

/-- C3: with the form open on Selection `s`, submitting appends exactly
one new record carrying coordinate `s` at the front of the list, with
the freshly generated identity (unique provided the generated UUID is
not already present), resets the Selection to none, and leaves durable
storage holding exactly the serialized updated list (`addStation` in
`src/App.tsx`, `handleSubmit` in `src/components/StationForm.tsx`). -/
theorem submitForm_appends_one_record (st : AppState) (form : FormState)
    (s : Location) (freshId : String) (now : Int)
    (fetchOutcome : Except String Unit)
    (hsel : st.selectedLocation = some s)
    (hview : st.currentView = AppView.MAP)
    (hfresh : freshId ∉ st.stations.map StationData.id) :
    (step st (.submitForm form freshId now fetchOutcome)).stations =
      builtStation form s freshId now :: st.stations ∧
    (builtStation form s freshId now).location = s ∧
    (builtStation form s freshId now).id = freshId ∧
    (step st (.submitForm form freshId now fetchOutcome)).selectedLocation =
      none ∧
    getItem (step st (.submitForm form freshId now fetchOutcome)).storage
        STORAGE_KEY_DATA =
      some (encodeStations
        ((step st (.submitForm form freshId now fetchOutcome)).stations)) ∧
    ((st.stations.map StationData.id).Nodup →
      (((step st (.submitForm form freshId now fetchOutcome)).stations).map
        StationData.id).Nodup) := by
  have hstep : step st (.submitForm form freshId now fetchOutcome) =
      handleSubmit st form s freshId now fetchOutcome := by
    simp [step, hsel, hview]
  rw [hstep]
  have hsubmit : handleSubmit st form s freshId now fetchOutcome =
      addStation st (builtStation form s freshId now) := rfl
  rw [hsubmit]
  refine ⟨rfl, rfl, rfl, rfl, ?_, ?_⟩
  · simp [addStation, getItem, setItem]
  · intro hnodup
    refine List.nodup_cons.mpr ⟨?_, hnodup⟩
    simpa [builtStation] using hfresh

/-- The concrete clicked location of the C3 scenario. -/
def c3Loc : Location := ⟨2103 / 100, 10585 / 100⟩

/-- The app state right after clicking the map at `c3Loc`. -/
def c3State : AppState :=
  step (initialAppState emptyStorage) (.mapClick c3Loc)

/-- C3 witness: submitting the form after a concrete map click. -/
theorem submitForm_appends_one_record_witness :
    (step c3State (.submitForm ⟨"A", "B", "", []⟩ "u1" 0 (.ok ()))).stations =
      builtStation ⟨"A", "B", "", []⟩ c3Loc "u1" 0 :: c3State.stations ∧
    (builtStation ⟨"A", "B", "", []⟩ c3Loc "u1" 0).location = c3Loc ∧
    (builtStation ⟨"A", "B", "", []⟩ c3Loc "u1" 0).id = "u1" ∧
    (step c3State
        (.submitForm ⟨"A", "B", "", []⟩ "u1" 0 (.ok ()))).selectedLocation =
      none ∧
    getItem (step c3State
        (.submitForm ⟨"A", "B", "", []⟩ "u1" 0 (.ok ()))).storage
        STORAGE_KEY_DATA =
      some (encodeStations ((step c3State
        (.submitForm ⟨"A", "B", "", []⟩ "u1" 0 (.ok ()))).stations)) ∧
    ((c3State.stations.map StationData.id).Nodup →
      (((step c3State
        (.submitForm ⟨"A", "B", "", []⟩ "u1" 0 (.ok ()))).stations).map
        StationData.id).Nodup) :=
  submitForm_appends_one_record c3State ⟨"A", "B", "", []⟩ c3Loc "u1" 0
    (.ok ()) rfl rfl (by simp [c3State, step, initialAppState])

/-! ## C5 — CSV export format -/

/-- Scanning the escaped body of a CSV field recovers the original
characters. -/
theorem csvUnquoteBody_roundTrip (l : List Char) :
    csvUnquoteBody
      ((l.flatMap fun c => if c = '\"' then ['\"', '\"'] else [c]) ++
        ['\"']) = some l := by
  induction l with
  | nil =>
    rw [List.flatMap_nil, List.nil_append, csvUnquoteBody.eq_def]
    simp
  | cons c l ih =>
    by_cases h : c = '\"'
    · subst h
      rw [List.flatMap_cons, if_pos rfl, List.append_assoc,
        List.cons_append, List.cons_append, List.nil_append,
        csvUnquoteBody.eq_def]
      simp [ih]
    · rw [List.flatMap_cons, if_neg h, List.append_assoc,
        List.cons_append, List.nil_append, csvUnquoteBody.eq_def]
      simp [h, ih]

/-- A CSV field quoted by `csvQuote` reads back to the original string:
the wrapping quotes delimit it and doubled internal quotes collapse. -/
theorem csvUnquote_csvQuote (s : String) :
    csvUnquote (csvQuote s) = some s := by
  unfold csvUnquote csvQuote csvEscapeQuotes
  simp only [String.data_append, List.cons_append, List.nil_append,
    List.append_assoc]
  simp [csvUnquoteBody_roundTrip]

/-- The record of the C5 scenario: its name contains a double quote. -/
def tankStation : StationData :=
  { id := "id-1", name := "Tank \"A\"", address := "Addr",
    location := ⟨21, 105⟩, description := "desc", images := [],
    timestamp := 0 }

/-- C5 counterexample: the ID column is a string field, yet `exportToCSV`
emits it raw, not double-quote-wrapped — `s.id` is joined into the row
without the quoting applied to name, address and description
(`src/services/sheetService.ts` lines 328–343). -/
theorem csv_id_field_not_quoted :
    (csvRowFields tankStation).head? = some "id-1" ∧
    "id-1" ≠ csvQuote "id-1" := by
  constructor
  · rfl
  · decide

/-- C5 amended: CSV export emits the header plus one row per record,
columns in the order [ID, Name, Address, Latitude, Longitude,
Description, Timestamp(ISO-8601)]; the name, address and description
fields — but not the ID — are double-quote-wrapped with internal quotes
doubled (and therefore read back exactly), and the name `Tank "A"`
yields the field `"Tank ""A"""`. -/
theorem csv_export_format (stations : List StationData)
    (r : StationData) (s : String) :
    csvContent stations = String.intercalate "\n"
      (String.intercalate "," csvHeaders ::
        stations.map (fun x => String.intercalate "," (csvRowFields x))) ∧
    (stations.map (fun x => String.intercalate "," (csvRowFields x))).length
      = stations.length ∧
    csvRowFields r = [r.id, csvQuote r.name, csvQuote r.address,
      jsNumberToString r.location.lat, jsNumberToString r.location.lng,
      csvQuote r.description, toISOString r.timestamp] ∧
    csvUnquote (csvQuote s) = some s ∧
    csvQuote "Tank \"A\"" = "\"Tank \"\"A\"\"\"" := by
  refine ⟨rfl, List.length_map stations _, rfl, csvUnquote_csvQuote s, ?_⟩
  decide

/-! ## C1 — the two map backends are mutually exclusive -/

/-- `getLastD` over a cons steps to the tail. -/
theorem getLastD_cons_eq {α : Type} (a d : α) (l : List α) :
    (a :: l).getLastD d = l.getLastD a := by
  cases l <;> simp [List.getLastD]

/-- Glue two chains along the final state of the first trace. -/
theorem chain'_cons_append {α : Type} {R : α → α → Prop} :
    ∀ (t : List α) (s : α) (rest : List α),
      List.Chain' R (s :: t) → List.Chain' R (t.getLastD s :: rest) →
      List.Chain' R (s :: (t ++ rest))
  | [], _, _, _, h2 => h2
  | a :: t', s, rest, h1, h2 => by
    rw [List.cons_append]
    have h1' := List.chain'_cons.mp h1
    refine List.chain'_cons.mpr ⟨h1'.1, ?_⟩
    refine chain'_cons_append t' a rest h1'.2 ?_
    rwa [getLastD_cons_eq] at h2

/-- The final trace state stays clear of double activation. -/
theorem afterTrace_not_both : ∀ (t : List MapRefs) (s : MapRefs),
    ¬bothActive s → (∀ x ∈ t, ¬bothActive x) →
    ¬bothActive (afterTrace s t)
  | [], _, h, _ => h
  | a :: t', s, _, ht => by
    unfold afterTrace
    rw [getLastD_cons_eq]
    exact afterTrace_not_both t' a (ht a (by simp))
      (fun x hx => ht x (List.mem_cons_of_mem a hx))

/-- One render pass only constructs a backend from a state in which the
other backend is torn down, and never reaches double activation. -/
theorem renderPassTrace_ok (env : MapEnv) (s : MapRefs) :
    List.Chain' safeStep (s :: renderPassTrace env s) ∧
    ∀ x ∈ renderPassTrace env s, ¬bothActive x := by
  obtain ⟨g, l⟩ := s
  by_cases h1 : env.apiKey ≠ "" ∧ env.googleScriptLoaded ∧
      env.containerReady ∧ (MapRefs.mk g l).googleMap = false
  · have hg : g = false := h1.2.2.2
    subst hg
    have htrace : renderPassTrace env ⟨false, l⟩ =
        [⟨false, false⟩, ⟨true, false⟩] := by
      unfold renderPassTrace googleInitTrace leafletInitTrace afterTrace
      rw [if_pos h1]
      simp only [List.getLastD]
      rw [if_neg (fun hc => h1.1 hc.1)]
      rfl
    rw [htrace]
    constructor
    · simp [List.chain'_cons, safeStep]
    · simp [bothActive]
  · by_cases h2 : env.apiKey = "" ∧ env.containerReady ∧
        (MapRefs.mk g l).leafletMap = false ∧ env.leafletAvailable
    · have hl : l = false := h2.2.2.1
      subst hl
      have htrace : renderPassTrace env ⟨g, false⟩ =
          [⟨false, false⟩, ⟨false, true⟩] := by
        unfold renderPassTrace googleInitTrace leafletInitTrace afterTrace
        rw [if_neg h1]
        simp only [List.nil_append, List.getLastD]
        exact if_pos ⟨h2.1, h2.2.1, trivial, h2.2.2.2⟩
      rw [htrace]
      constructor
      · simp [List.chain'_cons, safeStep]
      · simp [bothActive]
    · have htrace : renderPassTrace env ⟨g, l⟩ = [] := by
        unfold renderPassTrace googleInitTrace leafletInitTrace afterTrace
        rw [if_neg h1]
        simp only [List.nil_append, List.getLastD]
        exact if_neg h2
      rw [htrace]
      exact ⟨List.chain'_singleton _, by simp⟩

/-- Exclusion and teardown-before-construction across any sequence of
render passes, given a safe start. -/
theorem renderPasses_ok : ∀ (envs : List MapEnv) (s : MapRefs),
    ¬bothActive s →
    List.Chain' safeStep (s :: renderPasses envs s) ∧
    ∀ x ∈ renderPasses envs s, ¬bothActive x
  | [], s, _ => ⟨List.chain'_singleton s, by simp [renderPasses]⟩
  | e :: es, s, h => by
    have hp := renderPassTrace_ok e s
    have hafter : ¬bothActive (afterTrace s (renderPassTrace e s)) :=
      afterTrace_not_both _ _ h hp.2
    have ih := renderPasses_ok es (afterTrace s (renderPassTrace e s)) hafter
    constructor
    · show List.Chain' safeStep (s :: (renderPassTrace e s ++
        renderPasses es (afterTrace s (renderPassTrace e s))))
      exact chain'_cons_append _ _ _ hp.1 ih.1
    · intro x hx
      have hx' : x ∈ renderPassTrace e s ++
          renderPasses es (afterTrace s (renderPassTrace e s)) := hx
      rcases List.mem_append.mp hx' with hx'' | hx''
      · exact hp.2 x hx''
      · exact ih.2 x hx''

/-- C1: from the mounted component (both backend refs null), across any
sequence of render passes under arbitrary environments — including
runtime changes of the provider key — the two backends are never both
active in the container, and every construction of one backend starts
from a state in which the other is already torn down: the direct
transition between the two active-backend states without passing
through the uninitialized state is unreachable (the init effects of
`src/components/MapContainer.tsx`). -/
theorem map_backends_mutually_exclusive (envs : List MapEnv) :
    (∀ x ∈ initialMapRefs :: renderPasses envs initialMapRefs,
      ¬bothActive x) ∧
    List.Chain' safeStep
      (initialMapRefs :: renderPasses envs initialMapRefs) := by
  have hinit : ¬bothActive initialMapRefs := by
    simp [bothActive, initialMapRefs]
  have h := renderPasses_ok envs initialMapRefs hinit
  refine ⟨?_, h.1⟩
  intro x hx
  rcases List.mem_cons.mp hx with rfl | hx'
  · exact hinit
  · exact h.2 x hx'

end GeoStation
